import Mathlib

/-!
Verification development for the ultralogi caching / binary-serialization core
(`ultralogi-rs/src/lib.rs`).

Modelling conventions:
* `f32` values are modelled as exact rationals (`ℚ`); the source's arithmetic on
  them (`x as f32 * tile_spacing`, `0.2 * color_scale`, …) is mirrored by the
  corresponding exact rational arithmetic.
* The IEEE-754 little-endian 4-byte serialization of an `f32` (what
  `std::ptr::copy_nonoverlapping` emits for each element of a `Vec<f32>`) is
  abstracted as a parameter `enc : ℚ → List ℕ`; theorems that speak about byte
  lengths assume `∀ q, (enc q).length = 4`, which is the only property of the
  encoding the source relies on.
* Machine integers are modelled as `ℤ`/`ℕ`; a `u32` value reaches the byte
  output only through `to_le_bytes`, which is modelled by `u32le` and already
  reduces modulo 2^32 bytewise, so no separate wrap-around is needed there.
* The DuckDB engine is external: a query result is taken as input (a list of
  Arrow batches, each a list of rows), and `ORDER BY` / `WHERE` clauses sent to
  the engine are modelled by sorting / filtering.
-/

namespace Ultralogi

/-- A row of the `tiles` table: integer `x`, `y`, `tile_type` (i32) and an
`f32` elevation. -/
structure Tile where
  x : ℤ
  y : ℤ
  tileType : ℤ
  elevation : ℚ
deriving DecidableEq, Repr

/-- `u32::to_le_bytes`: the four little-endian bytes of `n` (mod 2^32). -/
def u32le (n : ℕ) : List ℕ :=
  [n % 256, n / 256 % 256, n / 65536 % 256, n / 16777216 % 256]

/-- `tile_color` from the source: tile-type code to (r, g, b), each component
multiplied by `color_scale`. -/
def tile_color (tileType : ℤ) (colorScale : ℚ) : ℚ × ℚ × ℚ :=
  match tileType with
  | 0 => (0.2 * colorScale, 0.5 * colorScale, 0.8 * colorScale)
  | 1 => (0.3 * colorScale, 0.7 * colorScale, 0.3 * colorScale)
  | 2 => (0.6 * colorScale, 0.6 * colorScale, 0.5 * colorScale)
  | 3 => (0.9 * colorScale, 0.9 * colorScale, 0.95 * colorScale)
  | 4 => (0.8 * colorScale, 0.7 * colorScale, 0.4 * colorScale)
  | 5 => (0.1 * colorScale, 0.4 * colorScale, 0.1 * colorScale)
  | _ => (0.5 * colorScale, 0.5 * colorScale, 0.5 * colorScale)

/-- The four position components pushed for one row:
`(x * spacing, y * spacing, elevation, 1.0)`. -/
def rowPosition (tileSpacing : ℚ) (r : Tile) : List ℚ :=
  [(r.x : ℚ) * tileSpacing, (r.y : ℚ) * tileSpacing, r.elevation, 1]

/-- The four color components pushed for one row: `(r, g, b, 1.0)` with
`(r, g, b) = tile_color(tile_type, color_scale)`. -/
def rowColor (colorScale : ℚ) (r : Tile) : List ℚ :=
  [(tile_color r.tileType colorScale).1,
   (tile_color r.tileType colorScale).2.1,
   (tile_color r.tileType colorScale).2.2, 1]

/-- The transform loop shared by `query_tiles_gpu_ready`,
`precompute_tile_gpu_data` and `generate_tile_chunks`: iterate over the
batches, pushing each row's position components and color components onto the
`positions` and `colors` vectors. -/
def transformTiles (tileSpacing colorScale : ℚ) (batches : List (List Tile)) :
    List ℚ × List ℚ :=
  batches.foldl
    (fun acc batch =>
      batch.foldl
        (fun pc r => (pc.1 ++ rowPosition tileSpacing r, pc.2 ++ rowColor colorScale r))
        acc)
    ([], [])

/-- `batches.iter().map(|b| b.num_rows()).sum()`. -/
def totalRows (batches : List (List Tile)) : ℕ :=
  (batches.map List.length).sum

/-- The GPU-buffer pack step: `[count : u32 LE][position bytes][color bytes]`,
where each `f32` contributes its 4 bytes via `enc`. -/
def packGpuBuffer (enc : ℚ → List ℕ) (count : ℕ) (positions colors : List ℚ) :
    List ℕ :=
  u32le count ++ positions.flatMap enc ++ colors.flatMap enc

/-- `query_tiles_gpu_ready`: empty batch list short-circuits to an empty
buffer; otherwise transform all rows and pack. -/
def query_tiles_gpu_ready (enc : ℚ → List ℕ) (tileSpacing colorScale : ℚ)
    (batches : List (List Tile)) : List ℕ :=
  if batches.isEmpty then []
  else
    packGpuBuffer enc (totalRows batches)
      (transformTiles tileSpacing colorScale batches).1
      (transformTiles tileSpacing colorScale batches).2

/-- `precompute_tile_gpu_data`: transform and pack (no empty-batches
short-circuit in the source), then overwrite the GPU cache slot. Returns the
new contents of `GPU_CACHE`. -/
def precompute_tile_gpu_data (enc : ℚ → List ℕ) (tileSpacing colorScale : ℚ)
    (batches : List (List Tile)) (_oldCache : Option (List ℕ)) :
    Option (List ℕ) :=
  some (packGpuBuffer enc (totalRows batches)
    (transformTiles tileSpacing colorScale batches).1
    (transformTiles tileSpacing colorScale batches).2)

/-! ### Basic facts about the transform loop -/

theorem foldl_rows_eq (tileSpacing colorScale : ℚ) (l : List Tile)
    (acc : List ℚ × List ℚ) :
    l.foldl
      (fun pc r => (pc.1 ++ rowPosition tileSpacing r, pc.2 ++ rowColor colorScale r))
      acc
    = (acc.1 ++ l.flatMap (rowPosition tileSpacing), acc.2 ++ l.flatMap (rowColor colorScale)) := by
  induction l generalizing acc with
  | nil => simp
  | cons r rest ih =>
    simp [ih, List.append_assoc]

theorem transformTiles_eq (tileSpacing colorScale : ℚ)
    (batches : List (List Tile)) :
    transformTiles tileSpacing colorScale batches
      = (batches.flatten.flatMap (rowPosition tileSpacing),
         batches.flatten.flatMap (rowColor colorScale)) := by
  unfold transformTiles
  suffices h : ∀ acc : List ℚ × List ℚ,
      batches.foldl
        (fun acc batch =>
          batch.foldl
            (fun pc r => (pc.1 ++ rowPosition tileSpacing r, pc.2 ++ rowColor colorScale r))
            acc)
        acc
      = (acc.1 ++ batches.flatten.flatMap (rowPosition tileSpacing),
         acc.2 ++ batches.flatten.flatMap (rowColor colorScale)) by
    simpa using h ([], [])
  induction batches with
  | nil => simp
  | cons b rest ih =>
    intro acc
    rw [List.foldl_cons, foldl_rows_eq, ih]
    simp [List.append_assoc]

theorem bind_length_const {α β : Type} (f : α → List β) (k : ℕ)
    (h : ∀ a, (f a).length = k) (l : List α) :
    (l.flatMap f).length = k * l.length := by
  induction l with
  | nil => simp
  | cons a rest ih =>
    simp [List.length_append, ih, h a, Nat.mul_succ, Nat.add_comm]

theorem totalRows_eq_join_length (batches : List (List Tile)) :
    totalRows batches = batches.flatten.length := by
  simp [totalRows, List.length_flatten]

theorem packGpuBuffer_length (enc : ℚ → List ℕ) (henc : ∀ q, (enc q).length = 4)
    (count : ℕ) (positions colors : List ℚ) :
    (packGpuBuffer enc count positions colors).length
      = 4 + 4 * positions.length + 4 * colors.length := by
  simp [packGpuBuffer, u32le, bind_length_const enc 4 henc]
  omega

theorem packGpuBuffer_of_transform (enc : ℚ → List ℕ) (tileSpacing colorScale : ℚ)
    (batches : List (List Tile)) :
    packGpuBuffer enc (totalRows batches)
        (transformTiles tileSpacing colorScale batches).1
        (transformTiles tileSpacing colorScale batches).2
      = u32le batches.flatten.length
          ++ (batches.flatten.flatMap (rowPosition tileSpacing)).flatMap enc
          ++ (batches.flatten.flatMap (rowColor colorScale)).flatMap enc := by
  rw [transformTiles_eq, totalRows_eq_join_length]
  rfl

/-! ### Claim C1 -/

/-- Claim C1 (amended): the GPU-buffer producing operations emit
`[count : u32 LE] ++ [position components in row order] ++ [color components
in row order]` with row i's position tuple `(x*spacing, y*spacing, elevation,
1.0)`, and the buffer's byte length is exactly `4 + count*16 + count*16` —
for `precompute_tile_gpu_data` unconditionally, and for
`query_tiles_gpu_ready` whenever the source query yields at least one batch.
(As stated, the claim fails for `query_tiles_gpu_ready` on an empty batch
list, which short-circuits to a zero-length buffer; see the counterexample.) -/
theorem gpu_ready_buffer_layout (enc : ℚ → List ℕ) (henc : ∀ q, (enc q).length = 4)
    (tileSpacing colorScale : ℚ) (batches : List (List Tile))
    (oldCache : Option (List ℕ)) :
    (batches ≠ [] →
      query_tiles_gpu_ready enc tileSpacing colorScale batches
          = u32le batches.flatten.length
              ++ (batches.flatten.flatMap (rowPosition tileSpacing)).flatMap enc
              ++ (batches.flatten.flatMap (rowColor colorScale)).flatMap enc
        ∧ (query_tiles_gpu_ready enc tileSpacing colorScale batches).length
            = 4 + batches.flatten.length * 16 + batches.flatten.length * 16)
    ∧ precompute_tile_gpu_data enc tileSpacing colorScale batches oldCache
        = some (u32le batches.flatten.length
            ++ (batches.flatten.flatMap (rowPosition tileSpacing)).flatMap enc
            ++ (batches.flatten.flatMap (rowColor colorScale)).flatMap enc)
    ∧ ∀ buf, precompute_tile_gpu_data enc tileSpacing colorScale batches oldCache = some buf →
        buf.length = 4 + batches.flatten.length * 16 + batches.flatten.length * 16 := by
  have hpos : (batches.flatten.flatMap (rowPosition tileSpacing)).length
      = 4 * batches.flatten.length :=
    bind_length_const (rowPosition tileSpacing) 4 (fun _ => rfl) batches.flatten
  have hcol : (batches.flatten.flatMap (rowColor colorScale)).length
      = 4 * batches.flatten.length :=
    bind_length_const (rowColor colorScale) 4 (fun _ => rfl) batches.flatten
  have hlen : (packGpuBuffer enc (totalRows batches)
        (transformTiles tileSpacing colorScale batches).1
        (transformTiles tileSpacing colorScale batches).2).length
      = 4 + batches.flatten.length * 16 + batches.flatten.length * 16 := by
    rw [packGpuBuffer_of_transform]
    have := packGpuBuffer_length enc henc batches.flatten.length
      (batches.flatten.flatMap (rowPosition tileSpacing))
      (batches.flatten.flatMap (rowColor colorScale))
    rw [packGpuBuffer] at this
    rw [this, hpos, hcol]
    ring
  refine ⟨fun hne => ?_, ?_, ?_⟩
  · have hq : query_tiles_gpu_ready enc tileSpacing colorScale batches
        = packGpuBuffer enc (totalRows batches)
            (transformTiles tileSpacing colorScale batches).1
            (transformTiles tileSpacing colorScale batches).2 := by
      rw [query_tiles_gpu_ready, if_neg (by simpa [List.isEmpty_iff] using hne)]
    exact ⟨hq.trans (packGpuBuffer_of_transform ..), hq ▸ hlen⟩
  · rw [precompute_tile_gpu_data, packGpuBuffer_of_transform]
  · intro buf hbuf
    rw [precompute_tile_gpu_data] at hbuf
    cases hbuf
    exact hlen

/-- Witness for the amended claim C1 at a one-row table. -/
theorem gpu_ready_buffer_layout_witness :
    (query_tiles_gpu_ready (fun _ => [0, 0, 0, 0]) 1 1 [[⟨0, 0, 1, 2⟩]]).length
      = 4 + 1 * 16 + 1 * 16 := by
  have h := (gpu_ready_buffer_layout (fun _ => [0, 0, 0, 0]) (fun _ => rfl) 1 1
    [[⟨0, 0, 1, 2⟩]] none).1 (by simp)
  simpa using h.2

/-- Counterexample to claim C1 as stated: on an empty batch list (empty source
table) `query_tiles_gpu_ready` returns a zero-length buffer, not a 4-byte
buffer carrying `count = 0`, so its length is not `4 + count*16 + count*16`. -/
theorem gpu_ready_empty_counterexample :
    query_tiles_gpu_ready (fun _ => [0, 0, 0, 0]) 1 1 [] = []
    ∧ (query_tiles_gpu_ready (fun _ => [0, 0, 0, 0]) 1 1 ([] : List (List Tile))).length
        ≠ 4 + (List.flatten ([] : List (List Tile))).length * 16
            + (List.flatten ([] : List (List Tile))).length * 16 := by
  exact ⟨rfl, by simp [query_tiles_gpu_ready]⟩

/-! ### Claim C2 -/

/-- Claim C2: the tile-color mapping is the fixed table scaled by
`color_scale` — codes 0–5 map to their fixed triples, every other code maps to
`(0.5, 0.5, 0.5)` scaled likewise, and the alpha component emitted alongside
is always `1.0`. -/
theorem tile_color_table (colorScale : ℚ) :
    (tile_color 0 colorScale = (0.2 * colorScale, 0.5 * colorScale, 0.8 * colorScale)
      ∧ tile_color 1 colorScale = (0.3 * colorScale, 0.7 * colorScale, 0.3 * colorScale)
      ∧ tile_color 2 colorScale = (0.6 * colorScale, 0.6 * colorScale, 0.5 * colorScale)
      ∧ tile_color 3 colorScale = (0.9 * colorScale, 0.9 * colorScale, 0.95 * colorScale)
      ∧ tile_color 4 colorScale = (0.8 * colorScale, 0.7 * colorScale, 0.4 * colorScale)
      ∧ tile_color 5 colorScale = (0.1 * colorScale, 0.4 * colorScale, 0.1 * colorScale))
    ∧ (∀ t : ℤ, t ∉ ([0, 1, 2, 3, 4, 5] : List ℤ) →
        tile_color t colorScale = (0.5 * colorScale, 0.5 * colorScale, 0.5 * colorScale))
    ∧ (∀ r : Tile, rowColor colorScale r
        = [(tile_color r.tileType colorScale).1, (tile_color r.tileType colorScale).2.1,
           (tile_color r.tileType colorScale).2.2, 1]) := by
  refine ⟨⟨rfl, rfl, rfl, rfl, rfl, rfl⟩, ?_, fun _ => rfl⟩
  intro t h
  simp only [List.mem_cons, List.not_mem_nil, or_false] at h
  push_neg at h
  obtain ⟨h0, h1, h2, h3, h4, h5⟩ := h
  unfold tile_color
  split <;> simp_all

/-- Witness for claim C2: an out-of-range code maps to the scaled gray. -/
theorem tile_color_table_witness : tile_color 9 2 = (0.5 * 2, 0.5 * 2, 0.5 * 2) :=
  (tile_color_table 2).2.1 9 (by decide)

/-! ### The Polars result cache (`DataFrameCache`, `POLARS_CACHE`) -/

/-- A materialized Polars `DataFrame`: a list of rows (cell values abstracted
as integers; only row identity matters for the cache claims). -/
abbrev DF := List (List ℤ)

/-- The result-cache state: query text → DataFrame map plus a version
counter (the `u64` counter is modelled as `ℕ`; its increments stay far below
2^64 for any reachable state). -/
structure DataFrameCache where
  cache : List (String × DF)
  version : ℕ
deriving DecidableEq, Repr

/-- `HashMap::get` on the query-text map. -/
def lookupCache : List (String × DF) → String → Option DF
  | [], _ => none
  | (k, v) :: rest, sql => if k = sql then some v else lookupCache rest sql

/-- `HashMap::insert` on the query-text map (replaces an existing key). -/
def insertCache (sql : String) (df : DF) : List (String × DF) → List (String × DF)
  | [] => [(sql, df)]
  | (k, v) :: rest =>
    if k = sql then (sql, df) :: rest else (k, v) :: insertCache sql df rest

/-- The miss-path materialization: `dataframes[0]` vstacked with every later
chunk (empty chunk list gives `DataFrame::empty()`). -/
def materializeDFs : List DF → DF
  | [] => []
  | d :: rest => rest.foldl (fun acc df => acc ++ df) d

/-- `query_polars_cached`: on hit return the stored frame without touching
the engine; on miss run the engine, vstack the chunks, store (unless the
engine returned no chunks) and return. The `Bool` records whether the engine
critical section was entered on this path. -/
def query_polars_cached (engine : String → List DF) (sql : String)
    (st : DataFrameCache) : DF × DataFrameCache × Bool :=
  match lookupCache st.cache sql with
  | some df => (df, st, false)
  | none =>
    let dataframes := engine sql
    if dataframes.isEmpty then ([], st, true)
    else
      let result := materializeDFs dataframes
      (result, ⟨insertCache sql result st.cache, st.version⟩, true)

/-- `invalidate_polars_cache`: clear the map, bump the version. -/
def invalidate_polars_cache (st : DataFrameCache) : DataFrameCache :=
  ⟨[], st.version + 1⟩

/-- `clear_polars_cache` just delegates to `invalidate_polars_cache`. -/
def clear_polars_cache (st : DataFrameCache) : DataFrameCache :=
  invalidate_polars_cache st

/-- The statistics reported by `get_cache_stats`. -/
structure CacheStats where
  version : ℕ
  entries : ℕ
  totalRowsStat : ℕ
deriving DecidableEq, Repr

/-- `get_cache_stats`: version, entry count, and the summed heights of the
cached frames. -/
def get_cache_stats (st : DataFrameCache) : CacheStats :=
  ⟨st.version, st.cache.length, (st.cache.map (fun kv => kv.2.length)).sum⟩

/-- ASCII model of Rust's `str::to_uppercase` (SQL keywords are ASCII). -/
def toUpperAscii (s : String) : String :=
  String.mk (s.data.map Char.toUpper)

/-- `str::starts_with` on the underlying character sequences. -/
def startsWithKw (s kw : String) : Bool :=
  go kw.data s.data
where
  go : List Char → List Char → Bool
    | [], _ => true
    | _ :: _, [] => false
    | c :: cs, d :: ds => c == d && go cs ds

/-- The write-detection test of `execute_with_cache`: does the uppercased
statement start with one of the six keywords? -/
def should_invalidate (sql : String) : Bool :=
  startsWithKw (toUpperAscii sql) "INSERT"
    || startsWithKw (toUpperAscii sql) "UPDATE"
    || startsWithKw (toUpperAscii sql) "DELETE"
    || startsWithKw (toUpperAscii sql) "DROP"
    || startsWithKw (toUpperAscii sql) "CREATE"
    || startsWithKw (toUpperAscii sql) "ALTER"

/-- `execute_with_cache` (cache effect, successful execution): run the
statement on the engine, then invalidate the result cache when the
write-detection test fires. -/
def execute_with_cache (sql : String) (st : DataFrameCache) : DataFrameCache :=
  if should_invalidate sql then invalidate_polars_cache st else st

/-- The six invalidation keywords named by the spec. -/
def invalidationKeywords : List String :=
  ["INSERT", "UPDATE", "DELETE", "DROP", "CREATE", "ALTER"]

/-- Formalization of the claim's phrase «case-insensitive leading keyword»:
the first whitespace-delimited token of the statement, uppercased. (Used only
to state the counterexample to claim C5.) -/
def specLeadingKeyword (s : String) : String :=
  String.mk (((s.data.dropWhile (fun c => c.isWhitespace)).takeWhile
    (fun c => !c.isWhitespace)).map Char.toUpper)

/-! ### Claim C5 -/

/-- Claim C5 (amended): `execute_with_cache` clears the result cache and bumps
its version exactly when the *uppercased statement has one of
INSERT/UPDATE/DELETE/DROP/CREATE/ALTER as a literal prefix* (no tokenization:
leading whitespace defeats the test, and a longer first word such as
`INSERTED` still fires it); any other statement leaves the cache state
untouched. -/
theorem execute_with_cache_invalidation (sql : String) (st : DataFrameCache) :
    execute_with_cache sql st
      = if invalidationKeywords.any (fun kw => startsWithKw (toUpperAscii sql) kw)
        then ⟨[], st.version + 1⟩ else st := by
  have hcond : invalidationKeywords.any (fun kw => startsWithKw (toUpperAscii sql) kw)
      = should_invalidate sql := by
    simp [invalidationKeywords, should_invalidate, Bool.or_assoc]
  rw [execute_with_cache, hcond, invalidate_polars_cache]

/-- Counterexample to claim C5 as stated: the statement
`" insert into tiles values (1)"` has case-insensitive leading keyword
`INSERT`, yet `execute_with_cache` performs no invalidation (the prefix test
is defeated by the leading space), leaving a non-empty cache map and the old
version in place. -/
theorem execute_with_cache_counterexample :
    specLeadingKeyword " insert into tiles values (1)" = "INSERT"
    ∧ "INSERT" ∈ invalidationKeywords
    ∧ execute_with_cache " insert into tiles values (1)" ⟨[("q", [[0]])], 0⟩
        = ⟨[("q", [[0]])], 0⟩
    ∧ (⟨[("q", [[0]])], 0⟩ : DataFrameCache).cache ≠ [] := by
  refine ⟨by decide, by decide, by decide, by decide⟩

/-! ### Claim C6 -/

/-- Claim C6: after one invalidation the statistics report zero entries and a
version exactly one greater than before, and the cache map is completely
empty (`clear_polars_cache` is the same operation). -/
theorem invalidate_stats (st : DataFrameCache) :
    (get_cache_stats (invalidate_polars_cache st)).entries = 0
    ∧ (get_cache_stats (invalidate_polars_cache st)).version = st.version + 1
    ∧ (invalidate_polars_cache st).cache = []
    ∧ clear_polars_cache st = invalidate_polars_cache st :=
  ⟨rfl, rfl, rfl, rfl⟩

/-! ### Claim C7 -/

theorem lookup_insertCache (sql : String) (df : DF) (c : List (String × DF)) :
    lookupCache (insertCache sql df c) sql = some df := by
  induction c with
  | nil => simp [insertCache, lookupCache]
  | cons kv rest ih =>
    by_cases h : kv.1 = sql
    · simp [insertCache, h, lookupCache]
    · simp [insertCache, h, lookupCache, ih]

/-- Claim C7: a result-cache hit returns the stored table without touching
the engine; after a miss (for a query the engine answers with at least one
chunk) stores its materialized result, a repeated call is a hit returning the
very same table, again without touching the engine. -/
theorem polars_cache_hit_miss (engine : String → List DF) (sql : String)
    (st : DataFrameCache) :
    (∀ df, lookupCache st.cache sql = some df →
        query_polars_cached engine sql st = (df, st, false))
    ∧ (lookupCache st.cache sql = none → engine sql ≠ [] →
        (query_polars_cached engine sql st).1 = materializeDFs (engine sql)
        ∧ (query_polars_cached engine sql st).2.2 = true
        ∧ query_polars_cached engine sql (query_polars_cached engine sql st).2.1
            = ((query_polars_cached engine sql st).1,
               (query_polars_cached engine sql st).2.1, false)) := by
  constructor
  · intro df h
    simp [query_polars_cached, h]
  · intro hnone hne
    have hq : query_polars_cached engine sql st
        = (materializeDFs (engine sql),
           ⟨insertCache sql (materializeDFs (engine sql)) st.cache, st.version⟩,
           true) := by
      rw [query_polars_cached, hnone]
      simp [List.isEmpty_iff, hne]
    refine ⟨by rw [hq], by rw [hq], ?_⟩
    rw [hq]
    simp [query_polars_cached, lookup_insertCache]

/-- Witness for claim C7: a concrete hit, and a concrete miss followed by a
hit on the stored result. -/
theorem polars_cache_hit_miss_witness :
    query_polars_cached (fun _ => []) "q" ⟨[("q", [[5]])], 0⟩
      = ([[5]], ⟨[("q", [[5]])], 0⟩, false)
    ∧ (query_polars_cached (fun _ => [[[1]], [[2]]]) "r" ⟨[], 3⟩).1
        = materializeDFs [[[1]], [[2]]] :=
  ⟨(polars_cache_hit_miss (fun _ => []) "q" ⟨[("q", [[5]])], 0⟩).1 [[5]] rfl,
   ((polars_cache_hit_miss (fun _ => [[[1]], [[2]]]) "r" ⟨[], 3⟩).2 rfl
     (by decide)).1⟩

/-! ### Claim C8 -/

/-- `query_precomputed_tiles`: fetch the GPU scalar-cache slot, failing when
no precompute has run; the slot itself is read, never written. The pair
returns the call's result together with the slot contents afterwards. -/
def query_precomputed_tiles (gpuCache : Option (List ℕ)) :
    Except String (List ℕ) × Option (List ℕ) :=
  match gpuCache with
  | some data => (.ok data, some data)
  | none => (.error "GPU cache not initialized. Call precomputeTileGpuData first.", none)

/-- `get_cached_raw_tiles`: fetch the raw scalar-cache slot, failing when no
precompute has run. -/
def get_cached_raw_tiles (rawCache : Option (List ℕ)) :
    Except String (List ℕ) × Option (List ℕ) :=
  match rawCache with
  | some data => (.ok data, some data)
  | none => (.error "Raw tile cache not initialized. Call cacheRawTileData first.", none)

/-- Claim C8: with an empty slot both fetch operations fail (they never
succeed with any buffer, in particular never with an empty or default one);
with a filled slot each returns exactly the stored buffer and leaves the slot
unchanged. Neither path involves the engine. -/
theorem scalar_cache_fetch :
    (∀ data, query_precomputed_tiles (some data) = (.ok data, some data))
    ∧ (∀ data, get_cached_raw_tiles (some data) = (.ok data, some data))
    ∧ query_precomputed_tiles none
        = (.error "GPU cache not initialized. Call precomputeTileGpuData first.", none)
    ∧ get_cached_raw_tiles none
        = (.error "Raw tile cache not initialized. Call cacheRawTileData first.", none)
    ∧ (∀ buf, (query_precomputed_tiles none).1 ≠ .ok buf)
    ∧ (∀ buf, (get_cached_raw_tiles none).1 ≠ .ok buf) :=
  ⟨fun _ => rfl, fun _ => rfl, rfl, rfl,
   fun _ h => Except.noConfusion h, fun _ h => Except.noConfusion h⟩

/-- Witness for claim C8 at a concrete stored buffer. -/
theorem scalar_cache_fetch_witness :
    query_precomputed_tiles (some [1, 2]) = (.ok [1, 2], some [1, 2])
    ∧ get_cached_raw_tiles (some [3]) = (.ok [3], some [3]) :=
  ⟨scalar_cache_fetch.1 [1, 2], scalar_cache_fetch.2.1 [3]⟩

/-! ### The spatial chunk store -/

/-- A persisted row of the `tile_chunks` table. -/
structure ChunkRow where
  chunkX : ℤ
  chunkY : ℤ
  blob : List ℕ
deriving DecidableEq, Repr

/-- The `ORDER BY chunk_y, chunk_x` ordering on stored chunk rows. -/
def chunkKeyLE (a b : ChunkRow) : Prop :=
  a.chunkY < b.chunkY ∨ (a.chunkY = b.chunkY ∧ a.chunkX ≤ b.chunkX)

instance chunkKeyLE.instDecidableRel : DecidableRel chunkKeyLE := fun a b => by
  unfold chunkKeyLE
  infer_instance

instance chunkKeyLE.instIsTotal : IsTotal ChunkRow chunkKeyLE :=
  ⟨by intro a b; unfold chunkKeyLE; omega⟩

instance chunkKeyLE.instIsTrans : IsTrans ChunkRow chunkKeyLE :=
  ⟨by intro a b c; unfold chunkKeyLE; omega⟩

/-- The engine's `SELECT gpu_data FROM tile_chunks ORDER BY chunk_y, chunk_x`,
modelled as a stable sort of the stored rows by `(chunk_y, chunk_x)`. -/
def sortChunks (store : List ChunkRow) : List ChunkRow :=
  store.insertionSort chunkKeyLE

/-- `u32::from_le_bytes` on a blob's first four bytes (a blob shorter than 4
bytes is padded with zeros; the source never reads the count of such a blob,
and neither do the theorems below). -/
def declCount (blob : List ℕ) : ℕ :=
  blob.getD 0 0 + 256 * blob.getD 1 0 + 65536 * blob.getD 2 0
    + 16777216 * blob.getD 3 0

/-- One iteration of the chunk-combining loop of `query_chunked_tiles`:
skip blobs shorter than 4 bytes, parse the count, and when
`4 + pos_bytes * 2` bytes are present append `gpu_data[4 .. 4+pos_bytes]` to
the positions, `gpu_data[4+pos_bytes ..]` (to the end of the blob) to the
colors, and the count to the total. -/
def chunkStep (acc : List ℕ × List ℕ × ℕ) (gpuData : List ℕ) :
    List ℕ × List ℕ × ℕ :=
  if gpuData.length < 4 then acc
  else
    let count := declCount gpuData
    let posBytes := count * 16
    if 4 + posBytes * 2 ≤ gpuData.length then
      (acc.1 ++ (gpuData.drop 4).take posBytes,
       acc.2.1 ++ gpuData.drop (4 + posBytes),
       acc.2.2 + count)
    else acc

/-- `query_chunked_tiles`: fetch all chunk blobs ordered by
`(chunk_y, chunk_x)`, combine them with `chunkStep`, and emit
`[total_count : u32 LE] ++ all_positions ++ all_colors`. -/
def query_chunked_tiles (store : List ChunkRow) : List ℕ :=
  let folded := ((sortChunks store).map ChunkRow.blob).foldl chunkStep ([], [], 0)
  u32le folded.2.2 ++ folded.1 ++ folded.2.1

/-- The well-formedness test a blob must pass to be included:
`4 + count*16*2` bytes must be present (blobs shorter than 4 bytes fail it
automatically). -/
def wellFormedChunk (b : List ℕ) : Bool :=
  decide (4 + declCount b * 16 * 2 ≤ b.length)

/-- The blobs `query_chunked_tiles` includes, in the order it reads them. -/
def includedBlobs (store : List ChunkRow) : List (List ℕ) :=
  ((sortChunks store).map ChunkRow.blob).filter wellFormedChunk

theorem chunkStep_skip (acc : List ℕ × List ℕ × ℕ) (b : List ℕ)
    (h : b.length < 4 + 32 * declCount b) : chunkStep acc b = acc := by
  by_cases h4 : b.length < 4
  · simp [chunkStep, h4]
  · have hno : ¬ (4 + declCount b * 16 * 2 ≤ b.length) := by omega
    simp [chunkStep, h4, hno]

theorem chunkStep_wf (acc : List ℕ × List ℕ × ℕ) (b : List ℕ)
    (h : 4 + declCount b * 16 * 2 ≤ b.length) :
    chunkStep acc b
      = (acc.1 ++ (b.drop 4).take (declCount b * 16),
         acc.2.1 ++ b.drop (4 + declCount b * 16),
         acc.2.2 + declCount b) := by
  have h4 : ¬ b.length < 4 := by omega
  simp [chunkStep, h4, h]

theorem foldl_chunkStep (blobs : List (List ℕ)) (acc : List ℕ × List ℕ × ℕ) :
    blobs.foldl chunkStep acc
      = (acc.1 ++ (blobs.filter wellFormedChunk).flatMap
            (fun b => (b.drop 4).take (declCount b * 16)),
         acc.2.1 ++ (blobs.filter wellFormedChunk).flatMap
            (fun b => b.drop (4 + declCount b * 16)),
         acc.2.2 + ((blobs.filter wellFormedChunk).map declCount).sum) := by
  induction blobs generalizing acc with
  | nil => simp
  | cons b rest ih =>
    by_cases hwf : 4 + declCount b * 16 * 2 ≤ b.length
    · rw [List.foldl_cons, chunkStep_wf _ _ hwf, ih]
      simp [List.filter_cons, wellFormedChunk, hwf, List.append_assoc, Nat.add_assoc]
    · have hskip : b.length < 4 + 32 * declCount b := by omega
      rw [List.foldl_cons, chunkStep_skip _ _ hskip, ih]
      simp [List.filter_cons, wellFormedChunk, hwf]

theorem flatMap_congr_mem {α β : Type} (l : List α) (f g : α → List β)
    (h : ∀ a ∈ l, f a = g a) : l.flatMap f = l.flatMap g := by
  induction l with
  | nil => rfl
  | cons a rest ih =>
    simp only [List.flatMap_cons]
    rw [h a (List.mem_cons_self a rest), ih fun x hx => h x (List.mem_cons_of_mem a hx)]

/-! ### Claim C3 -/

/-- Claim C3 (amended): `query_chunked_tiles` reads the stored chunks in
ascending `(chunk_y, chunk_x)` order and — provided no blob is *over-long*
(longer than the `4 + 32*count` bytes its declared count implies; short blobs
are fine and are skipped) — emits
`[sum of included counts : u32 LE] ++ [included position arrays in order] ++
[included color arrays in order]`, where each included blob's position and
color ranges are the count-located byte ranges. (An over-long blob's trailing
bytes would be copied into the color section verbatim; see the
counterexample.) -/
theorem chunked_query_combines (store : List ChunkRow)
    (hexact : ∀ r ∈ store, r.blob.length ≤ 4 + 32 * declCount r.blob) :
    query_chunked_tiles store
      = u32le ((includedBlobs store).map declCount).sum
          ++ (includedBlobs store).flatMap
              (fun b => (b.drop 4).take (declCount b * 16))
          ++ (includedBlobs store).flatMap
              (fun b => (b.drop (4 + declCount b * 16)).take (declCount b * 16))
    ∧ List.Sorted chunkKeyLE (sortChunks store)
    ∧ (sortChunks store).Perm store := by
  refine ⟨?_, List.sorted_insertionSort chunkKeyLE store,
    List.perm_insertionSort chunkKeyLE store⟩
  have hcol : ∀ b ∈ includedBlobs store,
      b.drop (4 + declCount b * 16)
        = (b.drop (4 + declCount b * 16)).take (declCount b * 16) := by
    intro b hb
    obtain ⟨hmem, hpred⟩ := List.mem_filter.mp hb
    have hwf : 4 + declCount b * 16 * 2 ≤ b.length := by
      simpa [wellFormedChunk] using hpred
    obtain ⟨r, hr, rfl⟩ := List.mem_map.mp hmem
    have hrstore : r ∈ store := ((List.perm_insertionSort chunkKeyLE store).mem_iff).mp hr
    have hle := hexact r hrstore
    have hlen : (r.blob.drop (4 + declCount r.blob * 16)).length
        ≤ declCount r.blob * 16 := by
      simp only [List.length_drop]
      omega
    exact (List.take_of_length_le hlen).symm
  rw [query_chunked_tiles, foldl_chunkStep]
  simp only [List.nil_append, Nat.zero_add]
  have hfold : List.filter wellFormedChunk ((sortChunks store).map ChunkRow.blob)
      = includedBlobs store := rfl
  rw [hfold, flatMap_congr_mem _ _ _ hcol]

/-- Witness for the amended claim C3: a store with one exact-sized and one
short (malformed) chunk. The short chunk is dropped, the exact one's count,
positions and colors come through, and the combined count is 1. -/
theorem chunked_query_combines_witness :
    (∀ r ∈ [ChunkRow.mk 0 1 [2], ChunkRow.mk 0 0 (u32le 1 ++ List.replicate 32 3)],
        r.blob.length ≤ 4 + 32 * declCount r.blob)
    ∧ query_chunked_tiles
        [ChunkRow.mk 0 1 [2], ChunkRow.mk 0 0 (u32le 1 ++ List.replicate 32 3)]
      = u32le 1 ++ List.replicate 16 3 ++ List.replicate 16 3 := by
  have h : ∀ r ∈ [ChunkRow.mk 0 1 [2], ChunkRow.mk 0 0 (u32le 1 ++ List.replicate 32 3)],
      r.blob.length ≤ 4 + 32 * declCount r.blob := by decide
  refine ⟨h, ?_⟩
  rw [(chunked_query_combines _ h).1]
  decide

/-- Counterexample to claim C3 as stated: a store holding one over-long blob
(declared count 1, 4 + 32 bytes of header/positions/colors, plus one stray
trailing byte `7`). The blob passes the well-formedness check
(`length ≥ 4 + 32*count`), yet the emitted buffer is *not*
`[count][position bytes][color bytes]` with the color bytes located from the
count — the stray byte is copied into the color section, giving a 37-byte
buffer where the claim's layout forces `4 + 16*1 + 16*1 = 36` bytes. -/
theorem chunked_query_overlong_counterexample :
    wellFormedChunk (u32le 1 ++ List.replicate 16 1 ++ List.replicate 16 2 ++ [7]) = true
    ∧ query_chunked_tiles
        [ChunkRow.mk 0 0 (u32le 1 ++ List.replicate 16 1 ++ List.replicate 16 2 ++ [7])]
        ≠ u32le 1
          ++ (((u32le 1 ++ List.replicate 16 1 ++ List.replicate 16 2 ++ [7]).drop 4).take 16)
          ++ (((u32le 1 ++ List.replicate 16 1 ++ List.replicate 16 2 ++ [7]).drop 20).take 16)
    ∧ (query_chunked_tiles
        [ChunkRow.mk 0 0 (u32le 1 ++ List.replicate 16 1 ++ List.replicate 16 2 ++ [7])]).length
        = 37
    ∧ (37 : ℕ) ≠ 4 + 1 * 16 + 1 * 16 := by
  refine ⟨by decide, by decide, by decide, by decide⟩

/-! ### Claim C4 -/

/-- Claim C4: a stored blob whose byte length is smaller than the
`4 + 32*count` bytes its declared count implies is skipped by
`query_chunked_tiles` without failing: the output over a store containing it
is identical to the output over the store without it, so it contributes
nothing and every remaining chunk is still aggregated. -/
theorem chunked_malformed_skip (store : List ChunkRow) (e : ChunkRow)
    (h : e.blob.length < 4 + 32 * declCount e.blob) :
    query_chunked_tiles (e :: store) = query_chunked_tiles store := by
  have hsort : sortChunks (e :: store)
      = (sortChunks store).orderedInsert chunkKeyLE e := rfl
  have hins := List.orderedInsert_eq_take_drop chunkKeyLE e (sortChunks store)
  have hdec : sortChunks store
      = ((sortChunks store).takeWhile fun b => ¬chunkKeyLE e b)
          ++ (sortChunks store).dropWhile fun b => ¬chunkKeyLE e b :=
    (List.takeWhile_append_dropWhile ..).symm
  rw [query_chunked_tiles, query_chunked_tiles, hsort, hins]
  conv_rhs => rw [hdec]
  simp only [List.map_append, List.map_cons, List.foldl_append, List.foldl_cons,
    chunkStep_skip _ _ h]

/-- Witness for claim C4: prepending the short blob `[9]` (declared count 9,
1 byte present) to a store leaves the combined output unchanged. -/
theorem chunked_malformed_skip_witness :
    ([9] : List ℕ).length < 4 + 32 * declCount [9]
    ∧ query_chunked_tiles
        [ChunkRow.mk 1 1 [9], ChunkRow.mk 0 0 (u32le 1 ++ List.replicate 32 3)]
      = query_chunked_tiles [ChunkRow.mk 0 0 (u32le 1 ++ List.replicate 32 3)] :=
  ⟨by decide, chunked_malformed_skip _ _ (by decide)⟩

/-! ### Claim C9 -/

/-- The claim's half-open chunk interval
`[cx*size, (cx+1)*size) × [cy*size, (cy+1)*size)` as a row predicate. -/
def chunkPred (chunkSize cx cy : ℤ) (t : Tile) : Bool :=
  decide (cx * chunkSize ≤ t.x ∧ t.x < (cx + 1) * chunkSize
    ∧ cy * chunkSize ≤ t.y ∧ t.y < (cy + 1) * chunkSize)

/-- The chunk-generation loop of `generate_tile_chunks`: for each `(cx, cy)`
with `0 ≤ cx, cy < grid_size / chunk_size` (`i32` truncating division,
`Int.tdiv`; cy-major loop order), query the rows of `temp_tiles` inside the
chunk's bounds, run the §4.2 transform, pack, and insert the blob keyed by
`(chunk_x, chunk_y)`. The engine's `WHERE` filter is modelled by
`List.filter`; the returned list holds the inserted rows in insertion order.
A nonpositive per-side quotient makes `0..chunks_per_side` an empty range in
Rust, hence `toNat` and no rows. -/
def generateChunksLoop (enc : ℚ → List ℕ) (gridSize chunkSize : ℤ)
    (tileSpacing colorScale : ℚ) (tempTiles : List Tile) : List ChunkRow :=
  let chunksPerSide := (gridSize.tdiv chunkSize).toNat
  (List.range chunksPerSide).flatMap (fun cyn : ℕ =>
    (List.range chunksPerSide).map (fun cxn : ℕ =>
      let cx : ℤ := (cxn : ℤ)
      let cy : ℤ := (cyn : ℤ)
      let xMin := cx * chunkSize
      let xMax := xMin + chunkSize
      let yMin := cy * chunkSize
      let yMax := yMin + chunkSize
      let rows := tempTiles.filter (fun t =>
        decide (xMin ≤ t.x ∧ t.x < xMax ∧ yMin ≤ t.y ∧ t.y < yMax))
      ChunkRow.mk cx cy
        (packGpuBuffer enc rows.length
          (transformTiles tileSpacing colorScale [rows]).1
          (transformTiles tileSpacing colorScale [rows]).2)))

/-- `generate_tile_chunks`: `chunks_per_side = grid_size / chunk_size` is an
`i32` division, so `chunk_size = 0` panics the program (modelled as `none`);
otherwise the generation loop runs to completion. -/
def generate_tile_chunks (enc : ℚ → List ℕ) (gridSize chunkSize : ℤ)
    (tileSpacing colorScale : ℚ) (tempTiles : List Tile) :
    Option (List ChunkRow) :=
  if chunkSize = 0 then none
  else some (generateChunksLoop enc gridSize chunkSize tileSpacing colorScale tempTiles)

theorem flatMap_map_length {α : Type} (n m : ℕ) (f : ℕ → ℕ → α) :
    ((List.range n).flatMap (fun i => (List.range m).map (f i))).length = n * m := by
  have h := bind_length_const (fun i => (List.range m).map (f i)) m
    (fun i => by simp) (List.range n)
  simpa [Nat.mul_comm] using h

/-- Claim C9 (amended): for nonnegative `grid_size` and positive
`chunk_size`, `generate_tile_chunks` runs its generation loop to completion
and produces exactly `(grid_size/chunk_size)²` chunks (`i32` truncating
quotient, which under these hypotheses equals its `ℕ`-valued model) — their
keys are exactly the pairs `(cx, cy)` with
`0 ≤ cx, cy < grid_size/chunk_size`, each occurring once — and every produced
blob is the §4.2 GPU-buffer transform (same position and color rules) of
exactly the source rows inside the chunk's half-open interval, keyed by
`(chunk_x, chunk_y)`. (Over *every* `grid_size` and `chunk_size`, as the
claim is stated, it fails: a negative quotient empties the loops so fewer
than `(grid_size/chunk_size)²` chunks are produced — see the counterexample —
and `chunk_size = 0` panics the program on division by zero.) -/
theorem generate_chunks_spec (enc : ℚ → List ℕ) (gridSize chunkSize : ℤ)
    (tileSpacing colorScale : ℚ) (tempTiles : List Tile)
    (hg : 0 ≤ gridSize) (hc : 0 < chunkSize) :
    generate_tile_chunks enc gridSize chunkSize tileSpacing colorScale tempTiles
        = some (generateChunksLoop enc gridSize chunkSize tileSpacing colorScale tempTiles)
    ∧ (generateChunksLoop enc gridSize chunkSize tileSpacing colorScale tempTiles).length
        = (gridSize.tdiv chunkSize).toNat * (gridSize.tdiv chunkSize).toNat
    ∧ (generateChunksLoop enc gridSize chunkSize tileSpacing colorScale tempTiles).map
          (fun r => (r.chunkX, r.chunkY))
        = (List.range (gridSize.tdiv chunkSize).toNat).flatMap (fun cyn : ℕ =>
            (List.range (gridSize.tdiv chunkSize).toNat).map
              (fun cxn : ℕ => ((cxn : ℤ), (cyn : ℤ))))
    ∧ ((generateChunksLoop enc gridSize chunkSize tileSpacing colorScale tempTiles).map
          (fun r => (r.chunkX, r.chunkY))).Nodup
    ∧ (∀ r ∈ generateChunksLoop enc gridSize chunkSize tileSpacing colorScale tempTiles,
        r.blob = packGpuBuffer enc
          (tempTiles.filter (chunkPred chunkSize r.chunkX r.chunkY)).length
          ((tempTiles.filter (chunkPred chunkSize r.chunkX r.chunkY)).flatMap
            (rowPosition tileSpacing))
          ((tempTiles.filter (chunkPred chunkSize r.chunkX r.chunkY)).flatMap
            (rowColor colorScale)))
    ∧ ((gridSize.tdiv chunkSize).toNat : ℤ) = gridSize.tdiv chunkSize := by
  have hkeys : (generateChunksLoop enc gridSize chunkSize tileSpacing colorScale tempTiles).map
        (fun r => (r.chunkX, r.chunkY))
      = (List.range (gridSize.tdiv chunkSize).toNat).flatMap (fun cyn : ℕ =>
          (List.range (gridSize.tdiv chunkSize).toNat).map
            (fun cxn : ℕ => ((cxn : ℤ), (cyn : ℤ)))) := by
    simp only [generateChunksLoop, List.map_flatMap, List.map_map]
    rfl
  refine ⟨by rw [generate_tile_chunks, if_neg (by omega)], ?_, hkeys, ?_, ?_, ?_⟩
  · simp only [generateChunksLoop]
    exact flatMap_map_length _ _ _
  · rw [hkeys, List.nodup_flatMap]
    constructor
    · intro cyn _
      refine List.Nodup.map ?_ (List.nodup_range _)
      intro a b hab
      simpa using congrArg Prod.fst hab
    · refine List.Pairwise.imp ?_ (List.pairwise_lt_range _)
      intro cyn cyn' hlt
      simp only [Function.onFun, List.disjoint_left, List.mem_map, List.mem_range]
      rintro p ⟨a, _, rfl⟩ ⟨b, _, heq⟩
      have h2 := congrArg Prod.snd heq
      simp only at h2
      omega
  · intro r hr
    simp only [generateChunksLoop, List.mem_flatMap, List.mem_map, List.mem_range] at hr
    obtain ⟨cyn, _, cxn, _, rfl⟩ := hr
    simp only
    have hfilter : tempTiles.filter (fun t =>
          decide ((cxn : ℤ) * chunkSize ≤ t.x ∧ t.x < (cxn : ℤ) * chunkSize + chunkSize
            ∧ (cyn : ℤ) * chunkSize ≤ t.y ∧ t.y < (cyn : ℤ) * chunkSize + chunkSize))
        = tempTiles.filter (chunkPred chunkSize (cxn : ℤ) (cyn : ℤ)) := by
      apply List.filter_congr
      intro t _
      simp only [chunkPred, decide_eq_decide]
      constructor <;> (rintro ⟨h1, h2, h3, h4⟩; refine ⟨h1, by linarith, h3, by linarith⟩)
    rw [hfilter, transformTiles_eq]
    simp
  · exact Int.toNat_of_nonneg (Int.tdiv_nonneg hg (le_of_lt hc))

/-- Counterexample to claim C9 as stated: at `grid_size = -1`,
`chunk_size = 1` the program computes `chunks_per_side = -1`, the Rust range
`0..-1` is empty, and no chunk row is inserted — yet the claim's
`(grid_size/chunk_size)²` demands `(-1)² = 1` chunk. -/
theorem generate_chunks_count_counterexample :
    generate_tile_chunks (fun _ => [0, 0, 0, 0]) (-1) 1 1 1 [] = some []
    ∧ ((-1 : ℤ).tdiv 1) * ((-1 : ℤ).tdiv 1) = 1
    ∧ ([] : List ChunkRow).length ≠ 1 := by
  refine ⟨by decide, by decide, by decide⟩

/-- Witness for the amended claim C9: a 4×2 grid over an empty source table
succeeds, yields `(4/2)² = 4` chunks, the side count agrees with the `i32`
quotient, and the chunk keyed `(0, 0)` carries the packed empty buffer. -/
theorem generate_chunks_spec_witness :
    generate_tile_chunks (fun _ => [0, 0, 0, 0]) 4 2 1 1 []
        = some (generateChunksLoop (fun _ => [0, 0, 0, 0]) 4 2 1 1 [])
    ∧ (generateChunksLoop (fun _ => [0, 0, 0, 0]) 4 2 1 1 []).length
        = ((4 : ℤ).tdiv 2).toNat * ((4 : ℤ).tdiv 2).toNat
    ∧ (((4 : ℤ).tdiv 2).toNat : ℤ) = (4 : ℤ).tdiv 2
    ∧ (ChunkRow.mk 0 0 [0, 0, 0, 0]).blob
        = packGpuBuffer (fun _ => [0, 0, 0, 0])
            (List.filter (chunkPred 2 (ChunkRow.mk 0 0 [0, 0, 0, 0]).chunkX
              (ChunkRow.mk 0 0 [0, 0, 0, 0]).chunkY) []).length
            ((List.filter (chunkPred 2 (ChunkRow.mk 0 0 [0, 0, 0, 0]).chunkX
              (ChunkRow.mk 0 0 [0, 0, 0, 0]).chunkY) []).flatMap (rowPosition 1))
            ((List.filter (chunkPred 2 (ChunkRow.mk 0 0 [0, 0, 0, 0]).chunkX
              (ChunkRow.mk 0 0 [0, 0, 0, 0]).chunkY) []).flatMap (rowColor 1)) :=
  ⟨(generate_chunks_spec (fun _ => [0, 0, 0, 0]) 4 2 1 1 [] (by decide) (by decide)).1,
   (generate_chunks_spec (fun _ => [0, 0, 0, 0]) 4 2 1 1 [] (by decide) (by decide)).2.1,
   (generate_chunks_spec (fun _ => [0, 0, 0, 0]) 4 2 1 1 [] (by decide) (by decide)).2.2.2.2.2,
   (generate_chunks_spec (fun _ => [0, 0, 0, 0]) 4 2 1 1 [] (by decide) (by decide)).2.2.2.2.1
     (ChunkRow.mk 0 0 [0, 0, 0, 0]) (by decide)⟩

/-! ### Claim C10 -/

/-- `i32::to_le_bytes`: two's-complement little-endian bytes. -/
def i32le (z : ℤ) : List ℕ :=
  u32le (z.emod 4294967296).toNat

/-- The raw structure-of-arrays buffer
`[count:u32][x:i32×n][y:i32×n][type:i32×n][elevation:f32×n]`. The source
writes each batch's columns into per-column offset regions; the resulting
bytes are each column concatenated across batches in batch order, i.e. the
column of the flattened row list. -/
def rawTileBuffer (encF : ℚ → List ℕ) (batches : List (List Tile)) : List ℕ :=
  u32le (totalRows batches)
    ++ (batches.flatten.map Tile.x).flatMap i32le
    ++ (batches.flatten.map Tile.y).flatMap i32le
    ++ (batches.flatten.map Tile.tileType).flatMap i32le
    ++ (batches.flatten.map Tile.elevation).flatMap encF

/-- `export_raw_tile_data`: empty batch list short-circuits to an empty
buffer; otherwise the raw SoA buffer. -/
def export_raw_tile_data (encF : ℚ → List ℕ) (batches : List (List Tile)) :
    List ℕ :=
  if batches.isEmpty then [] else rawTileBuffer encF batches

/-- `cache_raw_tile_data`: with an empty batch list return `0` without
touching the slot; otherwise overwrite the slot with the raw SoA buffer and
return the elapsed time (wall-clock, taken here as an oracle input
`elapsedMs`). The pair is (new `RAW_GPU_CACHE` contents, returned value). -/
def cache_raw_tile_data (encF : ℚ → List ℕ) (elapsedMs : ℤ)
    (batches : List (List Tile)) (rawCache : Option (List ℕ)) :
    Option (List ℕ) × ℤ :=
  if batches.isEmpty then (rawCache, 0)
  else (some (rawTileBuffer encF batches), elapsedMs)

/-- Claim C10: when the source query yields no row batches,
`query_tiles_gpu_ready` and `export_raw_tile_data` succeed with a zero-length
buffer (no 4-byte count header at all), and `cache_raw_tile_data` returns `0`
without storing anything — in particular a previously uninitialized raw
scalar cache stays uninitialized. -/
theorem empty_source_buffers (enc encF : ℚ → List ℕ) (tileSpacing colorScale : ℚ)
    (rawCache : Option (List ℕ)) (elapsedMs : ℤ) :
    query_tiles_gpu_ready enc tileSpacing colorScale [] = []
    ∧ (query_tiles_gpu_ready enc tileSpacing colorScale ([] : List (List Tile))).length = 0
    ∧ export_raw_tile_data encF [] = []
    ∧ (export_raw_tile_data encF ([] : List (List Tile))).length = 0
    ∧ cache_raw_tile_data encF elapsedMs [] rawCache = (rawCache, 0)
    ∧ cache_raw_tile_data encF elapsedMs [] none = (none, 0) :=
  ⟨rfl, rfl, rfl, rfl, rfl, rfl⟩

end Ultralogi
